import Mathlib

/-
Shallow embedding of gitwatch (github.com/jondlm/gitwatch).

The program is a polling watcher: main wires an interrupt-signal listener
and the watcher goroutine to one shared channel of Go error values
(endOfTimes) and exits with code 1 when the first value received is
non-nil, 0 otherwise; watchRepo resolves a working directory, clones,
runs the command once, then loops pull / branch-on-result / sleep,
sending the first fatal error on the channel and returning.

Effectful calls (temp-dir allocation, stat, mkdir, key load, clone,
worktree open, pull, command execution, HTTP POST) are embedded as
oracle inputs: an environment record holds the result each call would
return, and the embedded functions fold the control flow of the source
over those results, producing an event trace plus the value sent on the
termination channel.

The watch loop and main are embedded from src/main.go.  The notifier
variant of runCommand (slack webhook support) appears in the revision
src/unnamed/part_001 and is embedded in namespace Slack.
-/

/-- GoError models a non-nil Go error value.  errorNew s models
errors.New(s) and the error strings returned by library calls; a Go nil
error is represented by the value none of type Option GoError. -/
inductive GoError
  | errorNew (msg : String)
  deriving DecidableEq, Repr

/-- PullOutcome models the three-way switch on the error returned by
worktree.Pull in watchRepo (src/main.go lines 158-167): the sentinel
git.NoErrAlreadyUpToDate, a nil error (new updates fetched), or any
other non-nil error. -/
inductive PullOutcome
  | alreadyUpToDate
  | updated
  | failed (e : GoError)
  deriving DecidableEq, Repr

/-- CmdEnv is the oracle for one exec.Command invocation inside
runCommand (src/main.go lines 176-177): the combined stdout/stderr text
that CombinedOutput captures, and the error it returns (none when the
command exits with status zero). -/
structure CmdEnv where
  output : String
  cmdErr : Option GoError
  deriving DecidableEq, Repr

/-- Config models the context struct of main.go (fields copied by
app.Action from the parsed flags); branch, slackWebhook and slackTitle
come from the context struct of the notifier revision
src/unnamed/part_001.  The log handle and the endOfTimes channel are
not data and are modelled by the event trace and the termination value
below. -/
structure Config where
  gitRepo : String
  key : String
  cmd : String
  branch : String
  slackWebhook : String
  slackTitle : String
  args : List String
  intervalSeconds : Int
  destDir : String
  deriving DecidableEq, Repr

/-- isFlagChar lists the characters Go fmt consumes between a percent
sign and the verb of a directive: flags, width and precision digits. -/
def isFlagChar (c : Char) : Bool :=
  "+-# 0123456789.".data.contains c

/-- goFmtAux models fmt.Printf applied to a format string with NO
further operands, as runCommand does at src/main.go line 184
(fmt.Printf(string(output))).  Per the documentation of the Go fmt
package: a verb with no remaining operand prints %!v(MISSING) where v
is the verb, a double percent prints one percent, and a percent with no
verb prints %!(NOVERB).  The Bool flag records whether the scanner is
inside a directive (has consumed a percent).  Argument-index and star
directives are not used by any input considered here. -/
def goFmtAux : Bool → List Char → List Char
  | false, [] => []
  | false, '%' :: rest => goFmtAux true rest
  | false, c :: rest => c :: goFmtAux false rest
  | true, [] => "%!(NOVERB)".data
  | true, c :: rest =>
    if isFlagChar c then goFmtAux true rest
    else if c = '%' then '%' :: goFmtAux false rest
    else '%' :: '!' :: c :: "(MISSING)".data ++ goFmtAux false rest

/-- goPrintfNoArgs is the text fmt.Printf(s) writes to standard output
when given no operands beyond the format string s. -/
def goPrintfNoArgs (s : String) : String :=
  String.mk (goFmtAux false s.data)

/-- RunResult models the observable effect of one call to runCommand of
src/main.go: the text printed to standard output and the error value
the function returns (the error of CombinedOutput). -/
structure RunResult where
  printed : String
  ret : Option GoError
  deriving DecidableEq, Repr

/-- runCommand embeds runCommand of src/main.go lines 174-186: it runs
the command, prints the captured combined output via fmt.Printf with
the output as the format string, and returns the error of
CombinedOutput.  The log lines it writes are not part of the model. -/
def runCommand (env : CmdEnv) : RunResult :=
  { printed := goPrintfNoArgs env.output
    ret := env.cmdErr }

/-- derefArgs embeds derefArgs of src/main.go lines 188-196: it starts
from an empty slice and appends the elements of args one by one. -/
def derefArgs (args : List String) : List String :=
  args.foldl (fun newArgs a => newArgs ++ [a]) []

/-- Event records one observable step of the watcher goroutine:
directory creation (os.MkdirAll), clone success, a runCommand
invocation carrying whether the command succeeded, one pull attempt
with its outcome, the interval sleep, sending a value on the endOfTimes
channel, and the deferred os.RemoveAll of the temporary directory. -/
inductive Event
  | createdDir (dir : String)
  | cloned
  | ranCommand (ok : Bool)
  | pulled (outcome : PullOutcome)
  | slept (seconds : Int)
  | sentErr (e : GoError)
  | removedTempDir (dir : String)
  deriving DecidableEq, Repr

/-- IterEnv is the oracle for one iteration of the watch loop: the
result of repo.Worktree() (some e on failure), the outcome of
worktree.Pull, and the oracle for the runCommand call made when the
pull reports updates. -/
structure IterEnv where
  worktree : Option GoError
  pull : PullOutcome
  cmd : CmdEnv
  deriving DecidableEq, Repr

/-- WatchEnv is the oracle for one run of watchRepo: the result of
ioutil.TempDir (consulted only when no destination directory was
configured), whether os.Stat finds the directory, the results of
os.MkdirAll, gitSSH.NewPublicKeysFromFile and git.PlainClone, the
oracle for the initial runCommand call, and a finite script of loop
iterations (a run that exhausts the script is still looping). -/
structure WatchEnv where
  tmpDir : Except GoError String
  dirExists : Bool
  mkdir : Option GoError
  keyLoad : Option GoError
  cloneRes : Option GoError
  initCmd : CmdEnv
  iters : List IterEnv
  deriving Repr

/-- watchLoop embeds the unbounded for-loop of watchRepo
(src/main.go lines 146-171) on a finite script of iteration oracles.
Worktree failure and pull failure send the error on endOfTimes and
return; an updated pull runs the command; both non-fatal outcomes fall
through to the interval sleep. -/
def watchLoop (cfg : Config) : List IterEnv → List Event × Option GoError
  | [] => ([], none)
  | it :: rest =>
    match it.worktree with
    | some e => ([Event.sentErr e], some e)
    | none =>
      match it.pull with
      | PullOutcome.alreadyUpToDate =>
        let r := watchLoop cfg rest
        (Event.pulled PullOutcome.alreadyUpToDate ::
           Event.slept cfg.intervalSeconds :: r.1, r.2)
      | PullOutcome.updated =>
        let r := watchLoop cfg rest
        (Event.pulled PullOutcome.updated ::
           Event.ranCommand it.cmd.cmdErr.isNone ::
           Event.slept cfg.intervalSeconds :: r.1, r.2)
      | PullOutcome.failed e =>
        ([Event.pulled (PullOutcome.failed e), Event.sentErr e], some e)

/-- seqW sequences two watcher stages: when the first stage already
sent a fatal error the second never runs; otherwise the traces are
concatenated and the second stage decides the termination value. -/
def seqW (a b : List Event × Option GoError) : List Event × Option GoError :=
  match a.2 with
  | some _ => a
  | none => (a.1 ++ b.1, b.2)

/-- dirStage embeds the stat/MkdirAll block of watchRepo
(src/main.go lines 116-123): when the directory is missing it is
created, and a creation failure is sent on endOfTimes. -/
def dirStage (env : WatchEnv) (dir : String) : List Event × Option GoError :=
  if env.dirExists then ([], none)
  else
    match env.mkdir with
    | none => ([Event.createdDir dir], none)
    | some e => ([Event.sentErr e], some e)

/-- keyStage embeds the key-loading block of watchRepo
(src/main.go lines 127-133): only a non-empty key path triggers
NewPublicKeysFromFile, whose failure is sent on endOfTimes. -/
def keyStage (cfg : Config) (env : WatchEnv) : List Event × Option GoError :=
  if cfg.key = "" then ([], none)
  else
    match env.keyLoad with
    | none => ([], none)
    | some e => ([Event.sentErr e], some e)

/-- cloneStage embeds the git.PlainClone call of watchRepo
(src/main.go lines 135-143): failure is sent on endOfTimes, success
yields the repository handle used by the loop. -/
def cloneStage (env : WatchEnv) : List Event × Option GoError :=
  match env.cloneRes with
  | none => ([Event.cloned], none)
  | some e => ([Event.sentErr e], some e)

/-- watchTail is watchRepo after the directory exists: key load, clone,
the initial runCommand call (whose returned error the caller discards,
src/main.go line 144), then the loop. -/
def watchTail (cfg : Config) (env : WatchEnv) : List Event × Option GoError :=
  seqW (keyStage cfg env)
    (seqW (cloneStage env)
      (seqW ([Event.ranCommand env.initCmd.cmdErr.isNone], none)
        (watchLoop cfg env.iters)))

/-- watchBody is watchRepo after the working directory has been
resolved to dir: directory check, then watchTail. -/
def watchBody (cfg : Config) (env : WatchEnv) (dir : String) :
    List Event × Option GoError :=
  seqW (dirStage env dir) (watchTail cfg env)

/-- watchRepo embeds watchRepo of src/main.go lines 100-172.  With an
empty destination directory it allocates a temporary directory and
defers os.RemoveAll on it; the deferred removal runs exactly when the
function returns, hence after the fatal error is sent and never on a
run that is still looping.  A configured directory is used as is and
never removed. -/
def watchRepo (cfg : Config) (env : WatchEnv) : List Event × Option GoError :=
  if cfg.destDir = "" then
    match env.tmpDir with
    | Except.error e => ([Event.sentErr e], some e)
    | Except.ok tmp =>
      let r := watchBody cfg env tmp
      match r.2 with
      | some e => (r.1 ++ [Event.removedTempDir tmp], some e)
      | none => r
  else
    watchBody cfg env cfg.destDir

/-- mainExit embeds the tail of app.Action (src/main.go lines 88-94):
the first value received from endOfTimes decides the exit code, 1 for
a non-nil error and 0 otherwise. -/
def mainExit : Option GoError → Nat
  | some _ => 1
  | none => 0

/-- interruptChanValue is the value the signal-listener goroutine
(src/main.go lines 56-59) sends on endOfTimes when an interrupt
arrives: errors.New of a fixed message, hence a non-nil error. -/
def interruptChanValue : Option GoError :=
  some (GoError.errorNew "stopping due to an interrupt signal")

/-- PEvent is an event of the whole process: a watcher event, the
receipt of the interrupt value by main, or nothing further (cli.Exit
ends the process at once, killing the watcher goroutine and skipping
its deferred calls). -/
inductive PEvent
  | watch (ev : Event)
  | interruptReceived
  deriving DecidableEq, Repr

/-- processRun is a whole run in which no interrupt arrives: main
blocks on endOfTimes, so the observable events are the watcher events
and the exit code is decided by the value the watcher sends. -/
def processRun (cfg : Config) (env : WatchEnv) : List PEvent × Nat :=
  ((watchRepo cfg env).1.map PEvent.watch, mainExit (watchRepo cfg env).2)

/-- processInterrupted is a run in which the interrupt arrives after
the watcher has performed k events (for an interrupt during the
interval sleep, k points just past a slept event).  main receives
interruptChanValue, logs it and calls cli.Exit, which terminates the
process immediately: the watcher performs no event beyond the first k,
and in particular its deferred os.RemoveAll never runs. -/
def processInterrupted (cfg : Config) (env : WatchEnv) (k : Nat) :
    List PEvent × Nat :=
  (((watchRepo cfg env).1.take k).map PEvent.watch ++ [PEvent.interruptReceived],
   mainExit interruptChanValue)

/-- isCmdEv tests for a runCommand invocation event. -/
def isCmdEv : Event → Bool
  | Event.ranCommand _ => true
  | _ => false

/-- isClonedEv tests for the clone-success event. -/
def isClonedEv : Event → Bool
  | Event.cloned => true
  | _ => false

/-- isUpdEv tests for a pull attempt that reported updates. -/
def isUpdEv : Event → Bool
  | Event.pulled PullOutcome.updated => true
  | _ => false

/-- isPullEv tests for any pull attempt. -/
def isPullEv : Event → Bool
  | Event.pulled _ => true
  | _ => false

/-- isSentErrEv tests for a send on the endOfTimes channel. -/
def isSentErrEv : Event → Bool
  | Event.sentErr _ => true
  | _ => false

/-- isRemovalEv tests for the deferred removal of the temporary
directory. -/
def isRemovalEv : Event → Bool
  | Event.removedTempDir _ => true
  | _ => false

/-- isPCmdEv tests for a runCommand invocation event of the process. -/
def isPCmdEv : PEvent → Bool
  | PEvent.watch ev => isCmdEv ev
  | _ => false

/-- isPRemovalEv tests for a temporary-directory removal event of the
process. -/
def isPRemovalEv : PEvent → Bool
  | PEvent.watch ev => isRemovalEv ev
  | _ => false

attribute [simp] isCmdEv isClonedEv isUpdEv isPullEv isSentErrEv isRemovalEv
attribute [simp] isPCmdEv isPRemovalEv

/-- cmdPairOk constrains adjacent watcher events: immediately after a
clone success or an updated pull the next event is a command
invocation, and immediately after an up-to-date pull it is not. -/
def cmdPairOk : Event → Event → Bool
  | Event.cloned, Event.ranCommand _ => true
  | Event.cloned, _ => false
  | Event.pulled PullOutcome.updated, Event.ranCommand _ => true
  | Event.pulled PullOutcome.updated, _ => false
  | Event.pulled PullOutcome.alreadyUpToDate, Event.ranCommand _ => false
  | _, _ => true

/-- cmdFollows is the Prop form of cmdPairOk. -/
def cmdFollows (a b : Event) : Prop :=
  cmdPairOk a b = true

/-- noIterAfterFatal checks that once a value is sent on endOfTimes the
only remaining events are deferred temporary-directory removals: the
watcher performs no further poll iteration, command run or sleep. -/
def noIterAfterFatal : List Event → Bool
  | [] => true
  | Event.sentErr _ :: rest => rest.all isRemovalEv
  | _ :: rest => noIterAfterFatal rest

/-- eraseCmdOk forgets the success flag of command-invocation events,
so that traces can be compared up to command outcomes. -/
def eraseCmdOk : Event → Event
  | Event.ranCommand _ => Event.ranCommand true
  | ev => ev

/-- setIterCmd replaces the command oracle of one loop iteration. -/
def setIterCmd (c : CmdEnv) (it : IterEnv) : IterEnv :=
  { it with cmd := c }

/-- setCmds replaces every command oracle of a watcher environment,
leaving all version-control and filesystem oracles unchanged. -/
def setCmds (c : CmdEnv) (env : WatchEnv) : WatchEnv :=
  { env with initCmd := c, iters := env.iters.map (setIterCmd c) }

namespace Slack

/-- slackMessageField embeds the slackMessageField struct of
src/unnamed/part_001 lines 43-46. -/
structure slackMessageField where
  Title : String
  Value : String
  deriving DecidableEq, Repr

/-- slackMessage embeds the slackMessage struct of
src/unnamed/part_001 lines 48-53. -/
structure slackMessage where
  Fallback : String
  Pretext : String
  Color : String
  Fields : List slackMessageField
  deriving DecidableEq, Repr

/-- CmdEnv is the oracle for one call of the notifier variant of
runCommand (src/unnamed/part_001 lines 203-247): the captured combined
output, the error of CombinedOutput, the result of client.Do (an error
leaves the response nil; success carries the HTTP status code), and the
response body read on a non-200 status. -/
structure CmdEnv where
  output : String
  cmdErr : Option GoError
  httpResp : Except GoError Nat
  respBody : String
  deriving Repr

/-- RunOutcome is how a call of the notifier variant of runCommand
ends: a normal return carrying the error of CombinedOutput, or a
run-time panic (nil-pointer dereference) that crashes the process. -/
inductive RunOutcome
  | normal (ret : Option GoError)
  | panicked
  deriving DecidableEq, Repr

/-- RunResult models the observable effect of one call of the notifier
variant of runCommand: printed output, the webhook payload built when a
webhook is configured, the warnings logged, and how the call ends. -/
structure RunResult where
  printed : String
  payload : Option slackMessage
  warnings : List String
  outcome : RunOutcome
  deriving Repr

/-- runCommand embeds runCommand of src/unnamed/part_001 lines
203-247.  The slack color starts as good and becomes bad when
CombinedOutput reports an error.  With a webhook configured the
message is built and posted; when client.Do returns an error the code
logs a warning and then reads resp.StatusCode from the nil response,
a nil-pointer dereference that panics.  A non-200 status only logs a
warning.  The function returns the error of CombinedOutput (the inner
err of the webhook block shadows the outer one). -/
def runCommand (cfg : Config) (env : CmdEnv) : RunResult :=
  let slackColor := match env.cmdErr with
    | some _ => "bad"
    | none => "good"
  let printed := goPrintfNoArgs env.output
  if cfg.slackWebhook ≠ "" then
    let msg : slackMessage :=
      { Fallback := cfg.slackTitle
        Pretext := cfg.slackTitle
        Color := slackColor
        Fields := [{ Title := "stdout and stderr"
                     Value := "```" ++ env.output ++ "```" }] }
    match env.httpResp with
    | Except.error _ =>
      { printed := printed
        payload := some msg
        warnings := ["unable to send slack notification"]
        outcome := RunOutcome.panicked }
    | Except.ok status =>
      if status ≠ 200 then
        { printed := printed
          payload := some msg
          warnings := ["got non 200 from slack: " ++ env.respBody]
          outcome := RunOutcome.normal env.cmdErr }
      else
        { printed := printed
          payload := some msg
          warnings := []
          outcome := RunOutcome.normal env.cmdErr }
  else
    { printed := printed
      payload := none
      warnings := []
      outcome := RunOutcome.normal env.cmdErr }

end Slack

/-- cfg0 is a concrete configuration: no key, a configured clone
directory, default interval, a small command line. -/
def cfg0 : Config :=
  { gitRepo := "ssh://git@example.com/repo.git"
    key := ""
    cmd := "echo"
    branch := "master"
    slackWebhook := ""
    slackTitle := ""
    args := ["saw", "an", "update"]
    intervalSeconds := 30
    destDir := "/srv/gitwatch" }

/-- cmd0 is a concrete command oracle: some output, exit status zero. -/
def cmd0 : CmdEnv :=
  { output := "deployed", cmdErr := none }

/-- env0 is a concrete benign watcher environment: every stage
succeeds and one poll finds the repository up to date. -/
def env0 : WatchEnv :=
  { tmpDir := Except.ok "/tmp/gw000"
    dirExists := true
    mkdir := none
    keyLoad := none
    cloneRes := none
    initCmd := cmd0
    iters := [{ worktree := none, pull := PullOutcome.alreadyUpToDate, cmd := cmd0 }] }

/-- env3 is a concrete environment in which the initial clone fails. -/
def env3 : WatchEnv :=
  { tmpDir := Except.ok "/tmp/gw003"
    dirExists := true
    mkdir := none
    keyLoad := none
    cloneRes := some (GoError.errorNew "repository not found")
    initCmd := cmd0
    iters := [] }

/-- cfg7 is cfg0 with no configured directory, so watchRepo allocates
a temporary directory. -/
def cfg7 : Config :=
  { cfg0 with destDir := "" }

/-- env7e is env0 with a failing clone, to observe the deferred
removal on the error path. -/
def env7e : WatchEnv :=
  { env0 with cloneRes := some (GoError.errorNew "authentication required") }

/-- cfg4 is cfg0 with a slack webhook configured. -/
def cfg4 : Config :=
  { cfg0 with
      slackWebhook := "https://hooks.slack.example/services/T000/B000/XXXX"
      slackTitle := "gitwatch on host-1" }

/-- env4 is a concrete notifier oracle: the command succeeds and
client.Do returns a network error, leaving the response nil. -/
def env4 : Slack.CmdEnv :=
  { output := "deploy log"
    cmdErr := none
    httpResp := Except.error (GoError.errorNew "dial tcp: connection refused")
    respBody := "" }

theorem cmdFollows_createdDir (d : String) (y : Event) :
    cmdFollows (Event.createdDir d) y := by
  cases y <;> simp [cmdFollows, cmdPairOk]

theorem cmdFollows_ranCommand (b : Bool) (y : Event) :
    cmdFollows (Event.ranCommand b) y := by
  cases y <;> simp [cmdFollows, cmdPairOk]

theorem cmdFollows_slept (n : Int) (y : Event) :
    cmdFollows (Event.slept n) y := by
  cases y <;> simp [cmdFollows, cmdPairOk]

theorem cmdFollows_sentErr (e : GoError) (y : Event) :
    cmdFollows (Event.sentErr e) y := by
  cases y <;> simp [cmdFollows, cmdPairOk]

theorem cmdFollows_removedTempDir (d : String) (y : Event) :
    cmdFollows (Event.removedTempDir d) y := by
  cases y <;> simp [cmdFollows, cmdPairOk]

theorem cmdFollows_pulledFailed (e : GoError) (y : Event) :
    cmdFollows (Event.pulled (PullOutcome.failed e)) y := by
  cases y <;> simp [cmdFollows, cmdPairOk]

theorem cmdFollows_cloned_run (b : Bool) :
    cmdFollows Event.cloned (Event.ranCommand b) := by
  simp [cmdFollows, cmdPairOk]

theorem cmdFollows_updated_run (b : Bool) :
    cmdFollows (Event.pulled PullOutcome.updated) (Event.ranCommand b) := by
  simp [cmdFollows, cmdPairOk]

theorem cmdFollows_utd_slept (n : Int) :
    cmdFollows (Event.pulled PullOutcome.alreadyUpToDate) (Event.slept n) := by
  simp [cmdFollows, cmdPairOk]

theorem watchTail_eq (cfg : Config) (env : WatchEnv) :
    (∃ e, watchTail cfg env = ([Event.sentErr e], some e)) ∨
    watchTail cfg env =
      (Event.cloned :: Event.ranCommand env.initCmd.cmdErr.isNone ::
         (watchLoop cfg env.iters).1,
       (watchLoop cfg env.iters).2) := by
  unfold watchTail
  by_cases hkey : cfg.key = ""
  · cases hclone : env.cloneRes with
    | none => right; simp [seqW, keyStage, cloneStage, hkey, hclone]
    | some e =>
      left; exact ⟨e, by simp [seqW, keyStage, cloneStage, hkey, hclone]⟩
  · cases hkl : env.keyLoad with
    | none =>
      cases hclone : env.cloneRes with
      | none => right; simp [seqW, keyStage, cloneStage, hkey, hkl, hclone]
      | some e =>
        left; exact ⟨e, by simp [seqW, keyStage, cloneStage, hkey, hkl, hclone]⟩
    | some e =>
      left; exact ⟨e, by simp [seqW, keyStage, hkey, hkl]⟩

theorem watchBody_eq (cfg : Config) (env : WatchEnv) (dir : String) :
    ∃ pre : List Event,
      (pre = [] ∨ pre = [Event.createdDir dir]) ∧
      ((∃ e, watchBody cfg env dir = (pre ++ [Event.sentErr e], some e)) ∨
        watchBody cfg env dir =
          (pre ++ Event.cloned :: Event.ranCommand env.initCmd.cmdErr.isNone ::
             (watchLoop cfg env.iters).1,
           (watchLoop cfg env.iters).2)) := by
  unfold watchBody
  cases hdir : env.dirExists with
  | true =>
    refine ⟨[], Or.inl rfl, ?_⟩
    rcases watchTail_eq cfg env with ⟨e, he⟩ | he
    · left; exact ⟨e, by simp [seqW, dirStage, hdir, he]⟩
    · right; simp [seqW, dirStage, hdir, he]
  | false =>
    cases hmk : env.mkdir with
    | none =>
      refine ⟨[Event.createdDir dir], Or.inr rfl, ?_⟩
      rcases watchTail_eq cfg env with ⟨e, he⟩ | he
      · left; exact ⟨e, by simp [seqW, dirStage, hdir, hmk, he]⟩
      · right; simp [seqW, dirStage, hdir, hmk, he]
    | some e =>
      exact ⟨[], Or.inl rfl, Or.inl ⟨e, by simp [seqW, dirStage, hdir, hmk]⟩⟩

theorem watchRepo_eq (cfg : Config) (env : WatchEnv) :
    (∃ e, watchRepo cfg env = ([Event.sentErr e], some e)) ∨
    (∃ t, (watchBody cfg env t).2 = none ∧
        watchRepo cfg env = watchBody cfg env t) ∨
    (∃ t e, (watchBody cfg env t).2 = some e ∧
        watchRepo cfg env =
          ((watchBody cfg env t).1 ++ [Event.removedTempDir t], some e)) ∨
    watchRepo cfg env = watchBody cfg env cfg.destDir := by
  unfold watchRepo
  by_cases hdd : cfg.destDir = ""
  · rw [if_pos hdd]
    cases htmp : env.tmpDir with
    | error e => left; exact ⟨e, rfl⟩
    | ok t =>
      cases hb : (watchBody cfg env t).2 with
      | none => right; left; exact ⟨t, hb, by simp [hb]⟩
      | some e => right; right; left; exact ⟨t, e, hb, by simp [hb]⟩
  · rw [if_neg hdd]
    right; right; right; rfl

theorem watchLoop_chain (cfg : Config) (iters : List IterEnv) :
    List.Chain' cmdFollows (watchLoop cfg iters).1 := by
  induction iters with
  | nil => simp [watchLoop]
  | cons it rest ih =>
    cases hw : it.worktree with
    | some e => simp [watchLoop, hw]
    | none =>
      cases hp : it.pull with
      | alreadyUpToDate =>
        simp only [watchLoop, hw, hp]
        refine List.chain'_cons'.2 ⟨?_, List.chain'_cons'.2 ⟨?_, ih⟩⟩
        · intro y hy
          simp at hy
          subst hy
          exact cmdFollows_utd_slept _
        · intro y hy
          exact cmdFollows_slept _ y
      | updated =>
        simp only [watchLoop, hw, hp]
        refine List.chain'_cons'.2
          ⟨?_, List.chain'_cons'.2 ⟨?_, List.chain'_cons'.2 ⟨?_, ih⟩⟩⟩
        · intro y hy
          simp at hy
          subst hy
          exact cmdFollows_updated_run _
        · intro y hy
          simp at hy
          subst hy
          exact cmdFollows_ranCommand _ _
        · intro y hy
          exact cmdFollows_slept _ y
      | failed e =>
        simp only [watchLoop, hw, hp]
        refine List.chain'_cons'.2 ⟨?_, List.chain'_singleton _⟩
        intro y hy
        simp at hy
        subst hy
        exact cmdFollows_pulledFailed _ _

theorem watchLoop_counts (cfg : Config) (iters : List IterEnv) :
    ((watchLoop cfg iters).1.countP isCmdEv
        = (watchLoop cfg iters).1.countP isUpdEv) ∧
    ((watchLoop cfg iters).1.countP isClonedEv = 0) := by
  induction iters with
  | nil => simp [watchLoop]
  | cons it rest ih =>
    obtain ⟨ih1, ih2⟩ := ih
    cases hw : it.worktree with
    | some e =>
      simp [watchLoop, hw, List.countP_cons, isCmdEv, isUpdEv, isClonedEv]
    | none =>
      cases hp : it.pull with
      | alreadyUpToDate =>
        simp [watchLoop, hw, hp, List.countP_cons, isCmdEv, isUpdEv,
          isClonedEv, ih1, ih2]
      | updated =>
        simp [watchLoop, hw, hp, List.countP_cons, isCmdEv, isUpdEv,
          isClonedEv, ih1, ih2]
      | failed e =>
        simp [watchLoop, hw, hp, List.countP_cons, isCmdEv, isUpdEv, isClonedEv]

/-- WellEnded characterises the result of a watcher fragment: a
fragment that did not send on endOfTimes has no send event in its
trace, and a fragment that sent e ends its trace with exactly that
send event. -/
def WellEnded (r : List Event × Option GoError) : Prop :=
  (r.2 = none → r.1.countP isSentErrEv = 0) ∧
  (∀ e, r.2 = some e →
    ∃ pre, r.1 = pre ++ [Event.sentErr e] ∧ pre.countP isSentErrEv = 0)

theorem watchLoop_wellEnded (cfg : Config) (iters : List IterEnv) :
    WellEnded (watchLoop cfg iters) := by
  induction iters with
  | nil =>
    constructor
    · intro _; simp [watchLoop]
    · intro e he; simp [watchLoop] at he
  | cons it rest ih =>
    obtain ⟨ih1, ih2⟩ := ih
    cases hw : it.worktree with
    | some e =>
      constructor
      · intro h; simp [watchLoop, hw] at h
      · intro e2 h
        simp [watchLoop, hw] at h
        subst h
        exact ⟨[], by simp [watchLoop, hw], by simp⟩
    | none =>
      cases hp : it.pull with
      | alreadyUpToDate =>
        constructor
        · intro h
          simp only [watchLoop, hw, hp] at h ⊢
          simp [List.countP_cons, isSentErrEv, ih1 h]
        · intro e2 h
          simp only [watchLoop, hw, hp] at h ⊢
          obtain ⟨pre, hpre, hcnt⟩ := ih2 e2 h
          refine ⟨Event.pulled PullOutcome.alreadyUpToDate ::
              Event.slept cfg.intervalSeconds :: pre, ?_, ?_⟩
          · simp [hpre]
          · simp [List.countP_cons, isSentErrEv, hcnt]
      | updated =>
        constructor
        · intro h
          simp only [watchLoop, hw, hp] at h ⊢
          simp [List.countP_cons, isSentErrEv, ih1 h]
        · intro e2 h
          simp only [watchLoop, hw, hp] at h ⊢
          obtain ⟨pre, hpre, hcnt⟩ := ih2 e2 h
          refine ⟨Event.pulled PullOutcome.updated ::
              Event.ranCommand it.cmd.cmdErr.isNone ::
              Event.slept cfg.intervalSeconds :: pre, ?_, ?_⟩
          · simp [hpre]
          · simp [List.countP_cons, isSentErrEv, hcnt]
      | failed e =>
        constructor
        · intro h; simp [watchLoop, hw, hp] at h
        · intro e2 h
          simp only [watchLoop, hw, hp] at h
          simp only [Option.some.injEq] at h
          subst h
          refine ⟨[Event.pulled (PullOutcome.failed e)], ?_, ?_⟩
          · simp [watchLoop, hw, hp]
          · simp [List.countP_cons, isSentErrEv]

theorem watchBody_wellEnded (cfg : Config) (env : WatchEnv) (dir : String) :
    WellEnded (watchBody cfg env dir) := by
  obtain ⟨pre, hpre, h⟩ := watchBody_eq cfg env dir
  have hpre0 : pre.countP isSentErrEv = 0 := by
    rcases hpre with h1 | h1 <;> simp [h1, isSentErrEv, List.countP_cons]
  rcases h with ⟨e, he⟩ | he
  · constructor
    · intro h2; rw [he] at h2; simp at h2
    · intro e2 h2
      rw [he] at h2 ⊢
      simp only [Option.some.injEq] at h2
      subst h2
      exact ⟨pre, rfl, hpre0⟩
  · obtain ⟨l1, l2⟩ := watchLoop_wellEnded cfg env.iters
    constructor
    · intro h2
      rw [he] at h2 ⊢
      simp only at h2
      simp [List.countP_append, List.countP_cons, isSentErrEv, hpre0, l1 h2]
    · intro e2 h2
      rw [he] at h2 ⊢
      simp only at h2
      obtain ⟨pre2, hp2, hc2⟩ := l2 e2 h2
      refine ⟨pre ++ Event.cloned ::
          Event.ranCommand env.initCmd.cmdErr.isNone :: pre2, ?_, ?_⟩
      · simp [hp2]
      · simp [List.countP_append, List.countP_cons, isSentErrEv, hpre0, hc2]

theorem noIterAfterFatal_append (l m : List Event)
    (h : l.countP isSentErrEv = 0) :
    noIterAfterFatal (l ++ m) = noIterAfterFatal m := by
  induction l with
  | nil => simp
  | cons a l ih =>
    cases a <;> simp_all [noIterAfterFatal, List.countP_cons]

theorem noIterAfterFatal_of_clean (l : List Event)
    (h : l.countP isSentErrEv = 0) : noIterAfterFatal l = true := by
  have h2 := noIterAfterFatal_append l [] h
  simpa [noIterAfterFatal] using h2

theorem watchBody_counts (cfg : Config) (env : WatchEnv) (dir : String) :
    ((watchBody cfg env dir).1.countP isCmdEv
        = (watchBody cfg env dir).1.countP isClonedEv
          + (watchBody cfg env dir).1.countP isUpdEv) ∧
    (watchBody cfg env dir).1.countP isClonedEv ≤ 1 := by
  obtain ⟨hl1, hl2⟩ := watchLoop_counts cfg env.iters
  obtain ⟨pre, hpre, h⟩ := watchBody_eq cfg env dir
  rcases hpre with hp | hp <;> rcases h with ⟨e, he⟩ | he <;>
    rw [he, hp] <;>
    simp [List.countP_append, List.countP_cons, hl1, hl2] <;>
    omega

theorem watchBody_chain (cfg : Config) (env : WatchEnv) (dir : String) :
    List.Chain' cmdFollows (watchBody cfg env dir).1 := by
  have hloop := watchLoop_chain cfg env.iters
  obtain ⟨pre, hpre, h⟩ := watchBody_eq cfg env dir
  have hmain : List.Chain' cmdFollows
      (Event.cloned :: Event.ranCommand env.initCmd.cmdErr.isNone ::
        (watchLoop cfg env.iters).1) := by
    refine List.chain'_cons'.2 ⟨?_, List.chain'_cons'.2 ⟨?_, hloop⟩⟩
    · intro y hy
      simp at hy
      subst hy
      exact cmdFollows_cloned_run _
    · intro y hy
      exact cmdFollows_ranCommand _ y
  rcases h with ⟨e, he⟩ | he <;> rw [he] <;> rcases hpre with hp | hp <;> subst hp
  · simp
  · refine List.chain'_cons'.2 ⟨?_, ?_⟩
    · intro y hy
      exact cmdFollows_createdDir _ y
    · simp
  · simpa using hmain
  · refine List.chain'_cons'.2 ⟨?_, ?_⟩
    · intro y hy
      exact cmdFollows_createdDir _ y
    · simpa using hmain

theorem isPCmdEv_watch (ev : Event) :
    isPCmdEv (PEvent.watch ev) = isCmdEv ev := rfl

theorem countP_map_watch (tr : List Event) :
    (tr.map PEvent.watch).countP isPCmdEv = tr.countP isCmdEv := by
  induction tr with
  | nil => simp
  | cons a l ih => simp [List.countP_cons, ih, isPCmdEv_watch]

theorem setIterCmd_worktree (c : CmdEnv) (it : IterEnv) :
    (setIterCmd c it).worktree = it.worktree := rfl

theorem setIterCmd_pull (c : CmdEnv) (it : IterEnv) :
    (setIterCmd c it).pull = it.pull := rfl

theorem watchLoop_setCmds (cfg : Config) (c : CmdEnv) (iters : List IterEnv) :
    ((watchLoop cfg (iters.map (setIterCmd c))).1.map eraseCmdOk
        = (watchLoop cfg iters).1.map eraseCmdOk) ∧
    (watchLoop cfg (iters.map (setIterCmd c))).2 = (watchLoop cfg iters).2 := by
  induction iters with
  | nil => simp [watchLoop]
  | cons it rest ih =>
    obtain ⟨ih1, ih2⟩ := ih
    cases hw : it.worktree with
    | some e =>
      simp [watchLoop, setIterCmd_worktree, hw]
    | none =>
      cases hp : it.pull with
      | alreadyUpToDate =>
        simp [watchLoop, setIterCmd_worktree, setIterCmd_pull, hw, hp,
          eraseCmdOk, ih1, ih2]
      | updated =>
        simp [watchLoop, setIterCmd_worktree, setIterCmd_pull, hw, hp,
          eraseCmdOk, ih1, ih2]
      | failed e =>
        simp [watchLoop, setIterCmd_worktree, setIterCmd_pull, hw, hp]

theorem seqW_erase_congr {a b a2 b2 : List Event × Option GoError}
    (h1 : a.1.map eraseCmdOk = a2.1.map eraseCmdOk) (h2 : a.2 = a2.2)
    (h3 : b.1.map eraseCmdOk = b2.1.map eraseCmdOk) (h4 : b.2 = b2.2) :
    ((seqW a b).1.map eraseCmdOk = (seqW a2 b2).1.map eraseCmdOk) ∧
    (seqW a b).2 = (seqW a2 b2).2 := by
  unfold seqW
  rw [← h2]
  cases ha : a.2 with
  | some e => simp [h1, h2]
  | none => simp [List.map_append, h1, h3, h4]

theorem watchBody_setCmds (cfg : Config) (env : WatchEnv) (c : CmdEnv)
    (dir : String) :
    ((watchBody cfg (setCmds c env) dir).1.map eraseCmdOk
        = (watchBody cfg env dir).1.map eraseCmdOk) ∧
    (watchBody cfg (setCmds c env) dir).2 = (watchBody cfg env dir).2 := by
  have hiters : (setCmds c env).iters = env.iters.map (setIterCmd c) := rfl
  have hl := watchLoop_setCmds cfg c env.iters
  have hloop1 : (watchLoop cfg (setCmds c env).iters).1.map eraseCmdOk
      = (watchLoop cfg env.iters).1.map eraseCmdOk := by
    rw [hiters]; exact hl.1
  have hloop2 : (watchLoop cfg (setCmds c env).iters).2
      = (watchLoop cfg env.iters).2 := by
    rw [hiters]; exact hl.2
  have hinit : ([Event.ranCommand (setCmds c env).initCmd.cmdErr.isNone],
      (none : Option GoError)).1.map eraseCmdOk
      = ([Event.ranCommand env.initCmd.cmdErr.isNone],
      (none : Option GoError)).1.map eraseCmdOk := by
    simp [eraseCmdOk]
  have h4 := seqW_erase_congr hinit rfl hloop1 hloop2
  have hcl : cloneStage (setCmds c env) = cloneStage env := rfl
  have h3 := seqW_erase_congr (congrArg (fun r => r.1.map eraseCmdOk) hcl)
    (congrArg Prod.snd hcl) h4.1 h4.2
  have hk : keyStage cfg (setCmds c env) = keyStage cfg env := rfl
  have h2 := seqW_erase_congr (congrArg (fun r => r.1.map eraseCmdOk) hk)
    (congrArg Prod.snd hk) h3.1 h3.2
  have hd : dirStage (setCmds c env) dir = dirStage env dir := rfl
  exact seqW_erase_congr (congrArg (fun r => r.1.map eraseCmdOk) hd)
    (congrArg Prod.snd hd) h2.1 h2.2

theorem slack_payload_eq (cfg : Config) (env : Slack.CmdEnv)
    (h : cfg.slackWebhook ≠ "") :
    (Slack.runCommand cfg env).payload = some
      { Fallback := cfg.slackTitle
        Pretext := cfg.slackTitle
        Color := match env.cmdErr with
          | some _ => "bad"
          | none => "good"
        Fields := [{ Title := "stdout and stderr"
                     Value := "```" ++ env.output ++ "```" }] } := by
  unfold Slack.runCommand
  rw [if_pos h]
  cases env.httpResp with
  | error e => cases env.cmdErr <;> rfl
  | ok status =>
    by_cases hs : status ≠ 200
    · cases env.cmdErr <;> simp [hs]
    · cases env.cmdErr <;> simp [hs]

/-- Claim C1 (corrected): receipt of an interrupt signal, including one
arriving while the watcher is idle mid-sleep, makes the process exit
with code 1 (the interrupt path sends a non-nil error value on the
endOfTimes channel), not 0, and no pending command invocation is
started after the signal: the interrupt receipt is the last process
event and the command invocations of the run are exactly those the
watcher had already performed. -/
theorem c1_interrupt_exit_amended (cfg : Config) (env : WatchEnv) (k : Nat) :
    (processInterrupted cfg env k).2 = 1 ∧
    (processInterrupted cfg env k).1.getLast? = some PEvent.interruptReceived ∧
    (processInterrupted cfg env k).1.countP isPCmdEv
      = ((watchRepo cfg env).1.take k).countP isCmdEv := by
  refine ⟨rfl, ?_, ?_⟩
  · simp [processInterrupted]
  · simp only [processInterrupted, List.countP_append, countP_map_watch]
    simp [List.countP_cons]

/-- Claim C1 counterexample: in a run with no watcher error (benign
environment env0) interrupted mid-sleep, the process exit code is 1,
not 0 as the claim states. -/
theorem c1_interrupt_exit_counterexample :
    (processInterrupted cfg0 env0 4).2 ≠ 0 ∧
    (processInterrupted cfg0 env0 4).2 = 1 := by
  constructor
  · decide
  · decide

/-- Claim C2 (confirmed): in every execution of the watch loop the
number of command invocations equals the number of clone successes
plus the number of pulls reporting updates, the clone succeeds at most
once, and adjacency is as stated: a clone success and an updated pull
are each immediately followed by a command invocation, and an
up-to-date pull is never immediately followed by one.  Together these
say the command runs exactly once after the initial clone succeeds,
exactly once per updated pull, and never after an up-to-date pull. -/
theorem c2_command_invocations (cfg : Config) (env : WatchEnv) :
    ((watchRepo cfg env).1.countP isCmdEv
        = (watchRepo cfg env).1.countP isClonedEv
          + (watchRepo cfg env).1.countP isUpdEv) ∧
    (watchRepo cfg env).1.countP isClonedEv ≤ 1 ∧
    List.Chain' cmdFollows (watchRepo cfg env).1 := by
  rcases watchRepo_eq cfg env with ⟨e, he⟩ | ⟨t, ht, he⟩ | ⟨t, e, ht, he⟩ | he
  · rw [he]
    refine ⟨by simp [List.countP_cons], by simp [List.countP_cons], by simp⟩
  · rw [he]
    exact ⟨(watchBody_counts cfg env t).1, (watchBody_counts cfg env t).2,
      watchBody_chain cfg env t⟩
  · rw [he]
    obtain ⟨hc1, hc2⟩ := watchBody_counts cfg env t
    refine ⟨?_, ?_, ?_⟩
    · simp [List.countP_append, List.countP_cons, hc1]
    · simp [List.countP_append, List.countP_cons]
      omega
    · obtain ⟨_, w2⟩ := watchBody_wellEnded cfg env t
      obtain ⟨pre, hp, _⟩ := w2 e ht
      refine (watchBody_chain cfg env t).append (List.chain'_singleton _) ?_
      intro x hx y hy
      rw [hp, List.getLast?_concat] at hx
      simp at hx hy
      subst hx
      subst hy
      exact cmdFollows_sentErr _ _
  · rw [he]
    exact ⟨(watchBody_counts cfg env cfg.destDir).1,
      (watchBody_counts cfg env cfg.destDir).2,
      watchBody_chain cfg env cfg.destDir⟩

/-- Claim C3 (confirmed): for every fatal watcher error (temp-dir
allocation, directory creation, key load, clone, worktree open, or a
pull failure other than the up-to-date sentinel) the watcher sends the
error and stops: after the send on endOfTimes the trace holds nothing
but the deferred temp-dir removal (in particular no further poll
iteration), and the process exits with code 1. -/
theorem c3_fatal_error_terminates (cfg : Config) (env : WatchEnv) :
    noIterAfterFatal (watchRepo cfg env).1 = true ∧
    (∀ e, (watchRepo cfg env).2 = some e → (processRun cfg env).2 = 1) := by
  constructor
  · rcases watchRepo_eq cfg env with ⟨e, he⟩ | ⟨t, ht, he⟩ | ⟨t, e, ht, he⟩ | he
    · rw [he]
      rfl
    · rw [he]
      obtain ⟨w1, _⟩ := watchBody_wellEnded cfg env t
      exact noIterAfterFatal_of_clean _ (w1 ht)
    · rw [he]
      obtain ⟨_, w2⟩ := watchBody_wellEnded cfg env t
      obtain ⟨pre, hp, hc⟩ := w2 e ht
      rw [hp, List.append_assoc, noIterAfterFatal_append pre _ hc]
      rfl
    · rw [he]
      obtain ⟨w1, w2⟩ := watchBody_wellEnded cfg env cfg.destDir
      cases hb : (watchBody cfg env cfg.destDir).2 with
      | none => exact noIterAfterFatal_of_clean _ (w1 hb)
      | some e =>
        obtain ⟨pre, hp, hc⟩ := w2 e hb
        rw [hp, noIterAfterFatal_append pre _ hc]
        rfl
  · intro e he
    simp [processRun, he, mainExit]

/-- Claim C3 witness: with a failing clone the watcher terminates with
that error and the process exits with code 1. -/
theorem c3_fatal_error_terminates_witness :
    (watchRepo cfg0 env3).2 = some (GoError.errorNew "repository not found") ∧
    (processRun cfg0 env3).2 = 1 := by
  refine ⟨by decide, ?_⟩
  exact (c3_fatal_error_terminates cfg0 env3).2
    (GoError.errorNew "repository not found") (by decide)

/-- Claim C4 (code bug): with a webhook configured, a network error
from client.Do leaves the response nil, and the subsequent read of
resp.StatusCode dereferences the nil pointer: the call panics and
crashes the process after logging the warning, instead of the failure
being advisory only.  A non-200 response, by contrast, is handled as
the claim states: a warning only, with a normal return. -/
theorem c4_notifier_network_error_panics :
    (Slack.runCommand cfg4 env4).outcome = Slack.RunOutcome.panicked ∧
    (Slack.runCommand cfg4 env4).warnings
      = ["unable to send slack notification"] ∧
    (Slack.runCommand cfg4
        { env4 with httpResp := Except.ok 500, respBody := "invalid_token" }
      ).outcome = Slack.RunOutcome.normal none ∧
    (Slack.runCommand cfg4 { env4 with httpResp := Except.ok 200 }).outcome
      = Slack.RunOutcome.normal none := by
  refine ⟨by decide, by decide, by decide, by decide⟩

/-- Claim C5 counterexample: with a webhook configured and the command
exiting with status zero, the payload color is the string good, not ok
as the claim states. -/
theorem c5_color_counterexample :
    ((Slack.runCommand cfg4 { env4 with httpResp := Except.ok 200 }).payload.map
        fun m => m.Color) = some "good" ∧
    ((Slack.runCommand cfg4 { env4 with httpResp := Except.ok 200 }).payload.map
        fun m => m.Color) ≠ some "ok" := by
  refine ⟨by decide, by decide⟩

/-- Claim C5 (amended): for every command invocation with a webhook
configured, the notification payload color field is good when the
invoked command exits with status zero and bad otherwise, and the
payload does not depend on whether the notification delivery
succeeds. -/
theorem c5_color_amended (cfg : Config) (env : Slack.CmdEnv)
    (h : cfg.slackWebhook ≠ "") :
    ((Slack.runCommand cfg env).payload.map fun m => m.Color)
      = some (match env.cmdErr with
          | some _ => "bad"
          | none => "good") ∧
    ∀ r, (Slack.runCommand cfg { env with httpResp := r }).payload
      = (Slack.runCommand cfg env).payload := by
  constructor
  · rw [slack_payload_eq cfg env h]
    rfl
  · intro r
    rw [slack_payload_eq cfg { env with httpResp := r } h,
      slack_payload_eq cfg env h]

/-- Claim C5 witness: at the concrete webhook configuration cfg4 and a
zero-exit command, the payload color evaluates to good. -/
theorem c5_color_amended_witness :
    cfg4.slackWebhook ≠ "" ∧
    ((Slack.runCommand cfg4 env4).payload.map fun m => m.Color)
      = some "good" := by
  refine ⟨by decide, ?_⟩
  have h := c5_color_amended cfg4 env4 (by decide)
  simpa using h.1

/-- Claim C6 (confirmed): the outcome of every command invocation is
absorbed by the watcher: replacing every command oracle (spawn failure,
non-zero exit, any output) changes nothing in the run except the
success flag recorded on the invocation events themselves, and in
particular the value sent on the endOfTimes channel is unchanged, so
an invocation failure never terminates the loop and nothing is emitted
on the termination channel because of it. -/
theorem c6_command_result_nonfatal (cfg : Config) (env : WatchEnv)
    (c : CmdEnv) :
    ((watchRepo cfg (setCmds c env)).1.map eraseCmdOk
        = (watchRepo cfg env).1.map eraseCmdOk) ∧
    (watchRepo cfg (setCmds c env)).2 = (watchRepo cfg env).2 := by
  have htmp : (setCmds c env).tmpDir = env.tmpDir := rfl
  unfold watchRepo
  by_cases hdd : cfg.destDir = ""
  · rw [if_pos hdd, if_pos hdd, htmp]
    cases ht : env.tmpDir with
    | error e => exact ⟨rfl, rfl⟩
    | ok t =>
      obtain ⟨hb1, hb2⟩ := watchBody_setCmds cfg env c t
      cases hbs : (watchBody cfg env t).2 with
      | none =>
        have hbs2 : (watchBody cfg (setCmds c env) t).2 = none :=
          hb2.trans hbs
        simp only [hbs, hbs2]
        exact ⟨hb1, trivial⟩
      | some e =>
        have hbs2 : (watchBody cfg (setCmds c env) t).2 = some e :=
          hb2.trans hbs
        simp only [hbs, hbs2]
        refine ⟨?_, trivial⟩
        simp [hb1]
  · rw [if_neg hdd, if_neg hdd]
    exact watchBody_setCmds cfg env c cfg.destDir

/-- Claim C7 (code bug): with no configured directory, a benign run
interrupted mid-sleep exits (exit code 1, interrupt receipt is the
last process event) without ever performing the temporary-directory
removal: cli.Exit terminates the process while the watcher goroutine
is parked in its sleep, so its deferred os.RemoveAll never runs.  The
removal does run on the watcher-error path, as the fourth conjunct
shows on a failing clone. -/
theorem c7_tempdir_not_removed_on_interrupt :
    (processInterrupted cfg7 env0 4).1.countP isPRemovalEv = 0 ∧
    (processInterrupted cfg7 env0 4).1.getLast?
      = some PEvent.interruptReceived ∧
    (processInterrupted cfg7 env0 4).2 = 1 ∧
    (watchRepo cfg7 env7e).1.countP isRemovalEv = 1 := by
  refine ⟨by decide, by decide, by decide, by decide⟩

/-- Claim C8 (code bug): runCommand prints the captured output through
fmt.Printf with the output as the format string, so output holding a
percent directive is not printed unchanged: the output 50%d complete
is printed as 50%!d(MISSING) complete.  Output free of percent signs
is printed unchanged whether the command failed or not. -/
theorem c8_printf_mangles_output :
    (runCommand { output := "50%d complete", cmdErr := none }).printed
      = "50%!d(MISSING) complete" ∧
    (runCommand { output := "50%d complete", cmdErr := none }).printed
      ≠ "50%d complete" ∧
    (runCommand
        { output := "deploy done"
          cmdErr := some (GoError.errorNew "exit status 1") }).printed
      = "deploy done" := by
  refine ⟨by decide, by decide, by decide⟩

/-- Claim C9 (confirmed): derefArgs is the identity on argument lists:
it returns a list with the same elements in the same order as its
input. -/
theorem c9_derefArgs_identity (args : List String) : derefArgs args = args := by
  have h : ∀ (l acc : List String),
      l.foldl (fun newArgs a => newArgs ++ [a]) acc = acc ++ l := by
    intro l
    induction l with
    | nil => intro acc; simp
    | cons a t ih => intro acc; simp [ih]
  simpa [derefArgs] using h args []
